import Mathlib

/-!
Verification development for the junior.guru Memberful ingestion client and
subscription-activity ledger.  The definitions below are a shallow embedding of
the Python sources:

* `src/juniorguru/models/subscription.py` (the subscription activity ledger:
  `SubscriptionActivity.add`, `mark_trials`, the listing and breakdown queries,
  and the `uses_data_from_subscriptions` legacy-data guard), and
* `src/juniorguru/lib/memberful.py` (the paginated query engine `_query`, the
  deduplicating node stream `get_nodes`, the cached fetch `_execute_query`, and
  the CSV export client `download_csv`).

Python dates are embedded as year/month/day triples ordered lexicographically,
timestamps (`happened_at`) as natural numbers, SQL rows as Lean structures and
the relational table either as a list of rows (for the query methods) or, for
the key-based upsert, as a function from the unique key to an optional row
(justified by the unique composite index on `(type, account_id, happened_on)`).
SHA-256 content hashes are embedded as the hashed data itself, which models the
assumption that the hash is collision-free.
-/

/-- Decidable equality of `Except` results, used to evaluate the embedded
functions on concrete inputs. -/
instance {α β : Type} [DecidableEq α] [DecidableEq β] :
    DecidableEq (Except α β) := fun a b =>
  match a, b with
  | .error x, .error y =>
      if h : x = y then .isTrue (by rw [h]) else .isFalse (by simp [h])
  | .ok x, .ok y =>
      if h : x = y then .isTrue (by rw [h]) else .isFalse (by simp [h])
  | .error _, .ok _ => .isFalse (by simp)
  | .ok _, .error _ => .isFalse (by simp)

/-- A calendar date, as Python `datetime.date`: compared lexicographically. -/
structure PyDate where
  year : Nat
  month : Nat
  day : Nat
deriving DecidableEq

/-- Python `<` on dates (lexicographic on year, month, day). -/
def PyDate.lt (a b : PyDate) : Bool :=
  (a.year < b.year) ||
    (a.year == b.year &&
      ((a.month < b.month) || (a.month == b.month && a.day < b.day)))

/-- Python `<=` on dates. -/
def PyDate.le (a b : PyDate) : Bool :=
  PyDate.lt a b || (a == b)

/-- Number of days in a calendar month (Gregorian rules). -/
def daysInMonth (y m : Nat) : Nat :=
  if m = 2 then
    (if y % 4 = 0 && (y % 100 != 0 || y % 400 = 0) then 29 else 28)
  else if m = 4 || m = 6 || m = 9 || m = 11 then 30
  else 31

/-- Modelled from the spec: `month_range` from `juniorguru.lib.charts` is
imported by `subscription.py` but its source is not part of the repository
snapshot.  Per the spec it maps a date to the first and last day of the
calendar month containing it (the spec speaks of a "cutoff month" and of
"any date within February 2023" being in the range of the cutoff date). -/
def monthRange (d : PyDate) : PyDate × PyDate :=
  (⟨d.year, d.month, 1⟩, ⟨d.year, d.month, daysInMonth d.year d.month⟩)

/-- `LEGACY_PLANS_DELETED_ON = date(2023, 2, 24)` from `subscription.py`. -/
def LEGACY_PLANS_DELETED_ON : PyDate := ⟨2023, 2, 24⟩

/-- `is_missing_subscriptions_data` from `subscription.py`. -/
def isMissingSubscriptionsData (month : PyDate) : Bool :=
  if PyDate.lt month LEGACY_PLANS_DELETED_ON then true
  else if monthRange month = monthRange LEGACY_PLANS_DELETED_ON then true
  else false

/-- `SubscriptionActivityType` from `subscription.py`. -/
inductive SubscriptionActivityType where
  | trial_start
  | trial_end
  | order
  | deactivation
deriving DecidableEq

/-- `SubscriptionInterval` from `subscription.py`. -/
inductive SubscriptionInterval where
  | month
  | year
deriving DecidableEq

/-- `SubscriptionType` from `subscription.py`. -/
inductive SubscriptionType where
  | free
  | finaid
  | individual
  | trial
  | partner
  | student
deriving DecidableEq

/-- The `SubscriptionType` members in declaration order, as iterated by
`active_subscription_type_breakdown`. -/
def allSubscriptionTypes : List SubscriptionType :=
  [.free, .finaid, .individual, .trial, .partner, .student]

/-- One `SubscriptionActivity` row.  Nullable columns are `Option`s; the
non-null columns `type`, `account_id`, `account_has_feminine_name`,
`happened_on` and `happened_at` are plain fields. -/
structure Activity where
  type : SubscriptionActivityType
  accountId : String
  accountHasFeminineName : Bool
  happenedOn : PyDate
  happenedAt : Nat
  orderCoupon : Option String
  subscriptionInterval : Option SubscriptionInterval
  subscriptionType : Option SubscriptionType
deriving DecidableEq

/-- The unique composite key `(type, account_id, happened_on)` of the table. -/
abbrev ActivityKey := SubscriptionActivityType × String × PyDate

/-- Key of a row, per the unique index declared in `SubscriptionActivity.Meta`. -/
def activityKey (a : Activity) : ActivityKey :=
  (a.type, a.accountId, a.happenedOn)

/-- The conflict-update rule for one nullable column of `SubscriptionActivity.add`:
a non-null incoming value overwrites the stored one, a null incoming value
keeps the stored one (null fields are filtered out of the update dict). -/
def overwriteIfSome {α : Type} (incoming stored : Option α) : Option α :=
  match incoming with
  | some x => some x
  | none => stored

/-- The `ON CONFLICT ... DO UPDATE` assignment list of `SubscriptionActivity.add`:
every non-null incoming field that is not part of the unique key overwrites the
stored value, and `happened_at` is set by the `Case` expression to
`max(stored, incoming)`. -/
def mergeActivity (stored incoming : Activity) : Activity :=
  { stored with
      accountHasFeminineName := incoming.accountHasFeminineName
      happenedAt := max stored.happenedAt incoming.happenedAt
      orderCoupon := overwriteIfSome incoming.orderCoupon stored.orderCoupon
      subscriptionInterval :=
        overwriteIfSome incoming.subscriptionInterval stored.subscriptionInterval
      subscriptionType :=
        overwriteIfSome incoming.subscriptionType stored.subscriptionType }

/-- The ledger keyed by its unique index: thanks to the unique composite index
there is at most one row per `(type, account_id, happened_on)`. -/
abbrev ActivityTable := ActivityKey → Option Activity

/-- The empty ledger. -/
def emptyTable : ActivityTable := fun _ => none

/-- `SubscriptionActivity.add`: insert the incoming row, or on conflict with the
unique key apply the update rule of `mergeActivity`. -/
def addActivity (db : ActivityTable) (a : Activity) : ActivityTable :=
  fun k =>
    if k = activityKey a then
      some (match db (activityKey a) with
            | none => a
            | some stored => mergeActivity stored a)
    else db k

/-- Applying a batch of activity records in order, one `add` per record. -/
def applyBatch (db : ActivityTable) (batch : List Activity) : ActivityTable :=
  batch.foldl addActivity db

/-- One upsert step restricted to a single key slot (insert or merge). -/
def mergeStep (s : Option Activity) (a : Activity) : Option Activity :=
  some (match s with
        | none => a
        | some stored => mergeActivity stored a)

/-- Folding a record list into a single key slot. -/
def mergeRun (s : Option Activity) (batch : List Activity) : Option Activity :=
  batch.foldl mergeStep s

/-- Row-level fold of successive conflict-merges into a stored row. -/
def runRow (t : Activity) (batch : List Activity) : Activity :=
  batch.foldl mergeActivity t

/-- Fold computing the final `account_has_feminine_name` (always overwritten). -/
def lastBoolFold (x : Bool) (batch : List Activity) : Bool :=
  batch.foldl (fun _ r => r.accountHasFeminineName) x

/-- Fold computing the final `happened_at` (running maximum). -/
def maxAtFold (x : Nat) (batch : List Activity) : Nat :=
  batch.foldl (fun a r => max a r.happenedAt) x

/-- Fold computing the final value of one nullable column. -/
def lastSomeFold {α : Type} (f : Activity → Option α) (x : Option α)
    (batch : List Activity) : Option α :=
  batch.foldl (fun a r => overwriteIfSome (f r) a) x

/-- The CTE of the first pass of `mark_trials`: for every `order` activity that
happened on the same day as a `trial_end` activity of the same account, one
entry `(account_id, happened_on, subscription_type)` (one entry per matching
`trial_end` row, mirroring the join multiplicity). -/
def trialCte (db : List Activity) :
    List (String × PyDate × Option SubscriptionType) :=
  (db.map (fun r =>
    if r.type = SubscriptionActivityType.order then
      (db.filter (fun a =>
        decide (a.accountId = r.accountId) &&
        decide (a.happenedOn = r.happenedOn) &&
        decide (a.type = SubscriptionActivityType.trial_end))).map
        (fun _ => (r.accountId, r.happenedOn, r.subscriptionType))
    else [])).flatten

/-- First pass of `mark_trials`: `UPDATE ... FROM cte` setting
`subscription_type` of every activity of the account dated on or before the
day recorded in the CTE.  SQL leaves the choice among several matching CTE
rows unspecified; the model takes the first match. -/
def markTrialsPass1 (db : List Activity) : List Activity :=
  let cte := trialCte db
  db.map (fun r =>
    match cte.find? (fun e =>
        decide (e.1 = r.accountId) && PyDate.le r.happenedOn e.2.1) with
    | some e => { r with subscriptionType := e.2.2 }
    | none => r)

/-- Membership test of the second pass of `mark_trials`: the row `c` is
selected when it joins (on `account_id`) with some `trial_end` row `a` whose
`subscription_type` is `individual`, subject to the three dated disjuncts of
the `where` clause. -/
def markTrialsPass2Selected (db : List Activity) (c : Activity) : Bool :=
  db.any (fun a =>
    decide (a.accountId = c.accountId) &&
    decide (a.type = SubscriptionActivityType.trial_end) &&
    decide (a.subscriptionType = some SubscriptionType.individual) &&
    ((decide (c.type = SubscriptionActivityType.order) &&
        PyDate.lt c.happenedOn a.happenedOn) ||
     (decide (c.type = SubscriptionActivityType.trial_end) &&
        decide (c.happenedOn = a.happenedOn)) ||
     (decide (c.type = SubscriptionActivityType.trial_start) &&
        PyDate.lt c.happenedOn a.happenedOn)))

/-- Second pass of `mark_trials`: relabel every selected row as `trial`.  The
selection is evaluated against the snapshot before the update, as SQL does. -/
def markTrialsPass2 (db : List Activity) : List Activity :=
  db.map (fun c =>
    if markTrialsPass2Selected db c then
      { c with subscriptionType := some SubscriptionType.trial }
    else c)

/-- `SubscriptionActivity.mark_trials`: the two passes in order. -/
def markTrials (db : List Activity) : List Activity :=
  markTrialsPass2 (markTrialsPass1 db)

/-- Largest element of a list of naturals, if any. -/
def maxNat? : List Nat → Option Nat
  | [] => none
  | n :: ns => some (ns.foldl max n)

/-- The per-account aggregate of `SubscriptionActivity.listing`: the maximum
`happened_at` among the rows of the account dated on or before the given
date. -/
def latestAt (db : List Activity) (d : PyDate) (acct : String) : Option Nat :=
  maxNat? ((db.filter (fun r =>
    decide (r.accountId = acct) && PyDate.le r.happenedOn d)).map (·.happenedAt))

/-- `SubscriptionActivity.listing`: rows joining the per-account latest
`happened_at` aggregate on `(account_id, happened_at)`. -/
def listing (db : List Activity) (d : PyDate) : List Activity :=
  db.filter (fun r => decide (latestAt db d r.accountId = some r.happenedAt))

/-- `SubscriptionActivity.active_listing`: the listing without rows whose type
is `deactivation`. -/
def activeListing (db : List Activity) (d : PyDate) : List Activity :=
  (listing db d).filter (fun r =>
    decide (r.type ≠ SubscriptionActivityType.deactivation))

/-- `SubscriptionActivity.active_count`. -/
def activeCount (db : List Activity) (d : PyDate) : Nat :=
  (activeListing db d).length

/-- `SubscriptionActivity.active_individuals_count`, including the
`uses_data_from_subscriptions` guard (default `None`). -/
def activeIndividualsCount (db : List Activity) (d : PyDate) : Option Nat :=
  if isMissingSubscriptionsData d then none
  else some ((activeListing db d).filter (fun r =>
    decide (r.subscriptionType = some SubscriptionType.individual))).length

/-- `SubscriptionActivity.active_individuals_yearly_count`, including the
`uses_data_from_subscriptions` guard (default `None`). -/
def activeIndividualsYearlyCount (db : List Activity) (d : PyDate) : Option Nat :=
  if isMissingSubscriptionsData d then none
  else some ((activeListing db d).filter (fun r =>
    decide (r.subscriptionType = some SubscriptionType.individual) &&
    decide (r.subscriptionInterval = some SubscriptionInterval.year))).length

/-- The message of the `ValueError` raised by
`active_subscription_type_breakdown` on a null subscription type. -/
def breakdownErrorMsg : String :=
  "There are members whose latest activity is without subscription type"

/-- `SubscriptionActivity.active_subscription_type_breakdown`: short-circuits
to the empty mapping for legacy dates, raises `ValueError` when some active
row has a null `subscription_type`, and otherwise returns the count of every
subscription type. -/
def activeSubscriptionTypeBreakdown (db : List Activity) (d : PyDate) :
    Except String (List (SubscriptionType × Nat)) :=
  if isMissingSubscriptionsData d then .ok []
  else
    let acts := activeListing db d
    if acts.any (fun r => decide (r.subscriptionType = none)) then
      .error breakdownErrorMsg
    else
      .ok (allSubscriptionTypes.map (fun st =>
        (st, (acts.filter (fun r =>
          decide (r.subscriptionType = some st))).length)))

/-- First row with minimal `happened_at` of a nonempty list (models the row
SQLite associates with a bare column next to `min(happened_at)`). -/
def minByHappenedAt : List Activity → Option Activity
  | [] => none
  | r :: rs =>
      some (rs.foldl (fun best x =>
        if x.happenedAt < best.happenedAt then x else best) r)

/-- Account identifiers occurring in the table, without repetition. -/
def accountIds (db : List Activity) : List String :=
  (db.map (·.accountId)).dedup

/-- The groups of `SubscriptionActivity.signups` restricted by a row filter:
group the rows passing the filter and dated on or before the month end by
account, take the row carrying `min(happened_at)` of each group, and keep it
when its `happened_on` falls on or after the month start. -/
def signupRows (p : Activity → Bool) (db : List Activity) (d : PyDate) :
    List Activity :=
  let fromDate := (monthRange d).1
  let toDate := (monthRange d).2
  (accountIds db).filterMap (fun acct =>
    match minByHappenedAt (db.filter (fun r =>
        p r && decide (r.accountId = acct) && PyDate.le r.happenedOn toDate)) with
    | some m => if PyDate.le fromDate m.happenedOn then some m else none
    | none => none)

/-- `SubscriptionActivity.signups_count` (not guarded). -/
def signupsCount (db : List Activity) (d : PyDate) : Nat :=
  (signupRows (fun _ => true) db d).length

/-- `SubscriptionActivity.individuals_signups_count`, including the
`uses_data_from_subscriptions` guard (default `None`); the extra `where`
clause restricts the grouped rows to `subscription_type = individual`. -/
def individualsSignupsCount (db : List Activity) (d : PyDate) : Option Nat :=
  if isMissingSubscriptionsData d then none
  else some (signupRows (fun r =>
    decide (r.subscriptionType = some SubscriptionType.individual)) db d).length

/-- A GraphQL node, as consumed by `MemberfulAPI.get_nodes`: an optional `id`
field and an opaque payload standing for the rest of the serialized node. -/
structure Node where
  id : Option String
  payload : String
deriving DecidableEq

/-- A node identity: either the value of the `id` field, or the content hash
`hash_data(node)` over the whole node, embedded as the node itself (the
SHA-256 hash is assumed collision-free). -/
inductive NodeIdent where
  | byId (s : String)
  | byHash (n : Node)
deriving DecidableEq

/-- The identity of a node: the value of its `id` field when that value is
truthy, else the content hash of the whole node.  Python `or` falls through on
a falsy `id`, hence the empty string also falls back to the hash. -/
def nodeId (n : Node) : NodeIdent :=
  match n.id with
  | some s => if s = "" then NodeIdent.byHash n else NodeIdent.byId s
  | none => NodeIdent.byHash n

/-- One page of the paginated collection as seen by `get_nodes`: the declared
`totalCount` and the `edges[].node` list. -/
structure NodesPage where
  totalCount : Nat
  edges : List Node
deriving DecidableEq

/-- The `AssertionError`s `get_nodes` can raise. -/
inductive GetNodesError where
  | totalCountChanged (declared got : Nat)
  | duplicateNodes (count : Nat)
  | countMismatch (declared : Option Nat) (got : Nat)
deriving DecidableEq

/-- The loop state of `get_nodes`: the first-seen total count, the counters,
the set of already-seen node identities and the nodes yielded so far. -/
structure GetNodesState where
  declared : Option Nat
  nodesCount : Nat
  duplicatesCount : Nat
  seen : List NodeIdent
  yielded : List Node
deriving DecidableEq

/-- The state before any page is processed. -/
def initialNodesState : GetNodesState :=
  { declared := none, nodesCount := 0, duplicatesCount := 0, seen := [], yielded := [] }

/-- The inner loop body of `get_nodes`: a node whose identity was already seen
is counted as a duplicate and suppressed, any other node is yielded and its
identity recorded; `nodes_count` is incremented either way. -/
def processEdge (st : GetNodesState) (n : Node) : GetNodesState :=
  if _h : nodeId n ∈ st.seen then
    { st with duplicatesCount := st.duplicatesCount + 1
              nodesCount := st.nodesCount + 1 }
  else
    { st with yielded := st.yielded ++ [n]
              seen := nodeId n :: st.seen
              nodesCount := st.nodesCount + 1 }

/-- The outer loop body of `get_nodes`: record the declared total count on the
first page, raise when a later page declares a different one (before touching
its edges), else process the edges. -/
def processPage (st : GetNodesState) (p : NodesPage) :
    GetNodesState × Option GetNodesError :=
  if st.declared.getD p.totalCount ≠ p.totalCount then
    ({ st with declared := some (st.declared.getD p.totalCount) },
      some (.totalCountChanged (st.declared.getD p.totalCount) p.totalCount))
  else
    (p.edges.foldl processEdge
      { st with declared := some (st.declared.getD p.totalCount) }, none)

/-- Processing the successive pages, stopping at the first raised error (the
generator stops yielding once the assertion fails). -/
def runPages : GetNodesState → List NodesPage → GetNodesState × Option GetNodesError
  | st, [] => (st, none)
  | st, p :: ps =>
      match processPage st p with
      | (st1, some e) => (st1, some e)
      | (st1, none) => runPages st1 ps

/-- `MemberfulAPI.get_nodes` over a full drain of the page sequence: the final
loop state together with the error raised, if any.  After the pages are
exhausted the two final assertions fire: a nonzero duplicate counter, then a
mismatch between the declared count and the number of nodes received. -/
def getNodes (pages : List NodesPage) : GetNodesState × Option GetNodesError :=
  match runPages initialNodesState pages with
  | (st, some e) => (st, some e)
  | (st, none) =>
      if st.duplicatesCount ≠ 0 then (st, some (.duplicateNodes st.duplicatesCount))
      else if st.declared ≠ some st.nodesCount then
        (st, some (.countMismatch st.declared st.nodesCount))
      else (st, none)

/-- The `pageInfo` block of a paginated response:
`{hasNextPage: bool, endCursor: opaque-cursor-or-null}`. -/
structure PageInfo where
  hasNextPage : Bool
  endCursor : Option String
deriving DecidableEq

/-- One raw response of the paginated query, as yielded by
`MemberfulAPI._query`: its `pageInfo` (reached through the caller-supplied
accessor) and an opaque payload standing for the rest of the response. -/
structure QueryPage where
  pageInfo : PageInfo
  payload : String
deriving DecidableEq

/-- The request trace of `MemberfulAPI._query` against a server script.  The
loop keeps a cursor, initially the empty string, issues one request per
iteration (the script supplies the successive responses), and then either
advances the cursor to `pageInfo.endCursor` when `hasNextPage` is true or sets
it to `None`; the loop runs while the cursor is not `None`.  A null
`endCursor` therefore also ends the loop, even under a true `hasNextPage`. -/
def queryTrace : List QueryPage → String → List (String × QueryPage)
  | [], _ => []
  | r :: rest, cursor =>
      (cursor, r) ::
        (if r.pageInfo.hasNextPage then
          match r.pageInfo.endCursor with
          | some c => queryTrace rest c
          | none => []
        else [])

/-- The trace of a query execution started, as in the source, with the empty
string cursor. -/
def runQuery (script : List QueryPage) : List (String × QueryPage) :=
  queryTrace script ""

/-- The cache key of `_execute_query`: `hash_data(dict(query=..., variable_values=...))`,
embedded as the hashed data itself (the SHA-256 hash is assumed collision-free). -/
structure QueryKey where
  query : String
  variableValues : List (String × String)
deriving DecidableEq

/-- One entry of the diskcache `Cache`: a value stored under a key with a tag. -/
structure CacheEntry where
  key : QueryKey
  value : String
  tag : String
deriving DecidableEq

/-- `cache[key]` lookup. -/
def lookupCache (entries : List CacheEntry) (k : QueryKey) : Option String :=
  (entries.find? (fun e => decide (e.key = k))).map (·.value)

/-- `cache.evict(tag)`: drop every entry carrying the tag. -/
def evictTag (entries : List CacheEntry) (tag : String) : List CacheEntry :=
  entries.filter (fun e => decide (e.tag ≠ tag))

/-- The cache-related state of a Memberful client instance: the injected cache
(absent means pass-through) and the one-shot `clear_cache` flag. -/
structure MemberfulClient where
  cache : Option (List CacheEntry)
  clearCache : Bool
deriving DecidableEq

/-- The cache tag of `MemberfulAPI` (`self.__class__.__name__.lower()`). -/
def apiCacheTag : String := "memberfulapi"

/-- The cache tag of `MemberfulCSV`. -/
def csvCacheTag : String := "memberfulcsv"

/-- The observable outcome of one `_execute_query` call: the returned value or
propagated error, the client state afterwards, and how many network requests
and tag evictions the call performed. -/
structure ExecOutcome where
  result : Except String String
  client : MemberfulClient
  networkCalls : Nat
  evictions : Nat
deriving DecidableEq

/-- `MemberfulAPI._execute_query` with the network embedded as a deterministic
oracle from keys to results.  The two `if self.cache:` gates in the source
test Python truthiness: `diskcache.Cache` defines `__len__` and no `__bool__`,
so the gate is only taken when the cache is injected AND currently nonempty.
A falsy cache (absent, or present but empty) makes the call go straight to the
network with no eviction, no flag consumption, no lookup and no write.  With a
truthy cache: a pending clear flag first evicts this class tag and is
consumed; a hit returns the cached value with no network call; a miss fetches,
stores the value on success only while the cache is still nonempty at write
time (a clear that emptied it suppresses the write), and propagates failures
without writing. -/
def executeQuery (fetch : QueryKey → Except String String)
    (st : MemberfulClient) (q : QueryKey) : ExecOutcome :=
  match st.cache with
  | none => { result := fetch q, client := st, networkCalls := 1, evictions := 0 }
  | some entries0 =>
      if entries0 = [] then
        { result := fetch q, client := st, networkCalls := 1, evictions := 0 }
      else
        let entries := if st.clearCache then evictTag entries0 apiCacheTag else entries0
        let evs := if st.clearCache then 1 else 0
        match lookupCache entries q with
        | some v =>
            { result := .ok v
              client := { cache := some entries, clearCache := false }
              networkCalls := 0, evictions := evs }
        | none =>
            match fetch q with
            | .error e =>
                { result := .error e
                  client := { cache := some entries, clearCache := false }
                  networkCalls := 1, evictions := evs }
            | .ok v =>
                if entries = [] then
                  { result := .ok v
                    client := { cache := some entries, clearCache := false }
                    networkCalls := 1, evictions := evs }
                else
                  { result := .ok v
                    client := { cache :=
                                  some (entries ++ [{ key := q, value := v, tag := apiCacheTag }])
                                clearCache := false }
                    networkCalls := 1, evictions := evs }

/-- The message of the `DownloadError` raised by `download_csv`. -/
def downloadErrorMsg : String := "Failed to download the CSV export"

/-- The polling loop of `download_csv`: `for attempt_no in range(1, 10)`, so
with `k` iterations left and current attempt number `i`, wait five seconds,
poll once, stop on the first 2xx response.  Returns the downloaded body, if
any, and the number of attempts performed. -/
def pollAttempts (poll : Nat → Option String) : Nat → Nat → Option String × Nat
  | 0, _ => (none, 0)
  | k + 1, i =>
      match poll i with
      | some body => (some body, 1)
      | none =>
          let r := pollAttempts poll k (i + 1)
          (r.1, r.2 + 1)

/-- The cache key of `download_csv`: `hash_data(dict(url=url))`, embedded as
the export URL itself. -/
def csvKey (url : String) : QueryKey :=
  { query := url, variableValues := [] }

/-- The observable outcome of one `download_csv` call: the decoded CSV text or
the propagated error, the client state afterwards, the number of export POST
requests, tag evictions and poll attempts, and the total seconds slept. -/
structure CsvOutcome where
  result : Except String String
  client : MemberfulClient
  exportRequests : Nat
  evictions : Nat
  attempts : Nat
  waitedSec : Nat
deriving DecidableEq

/-- The export-and-poll part of `download_csv`: POST the export request (an
HTTP error propagates), then poll the download URL up to the attempt budget of
`range(1, 10)` with a five-second sleep before every attempt; on success store
the body under the CSV tag only when the cache is truthy (present and
nonempty) at write time, on exhaustion raise `DownloadError` without writing
to the cache. -/
def downloadCsvFetch (postExport : Except String String)
    (poll : Nat → Option String) (st : MemberfulClient) (url : String)
    (evs : Nat) : CsvOutcome :=
  match postExport with
  | .error e =>
      { result := .error e, client := st, exportRequests := 1,
        evictions := evs, attempts := 0, waitedSec := 0 }
  | .ok _loc =>
      let r := pollAttempts poll 9 1
      match r.1 with
      | some body =>
          let client :=
            match st.cache with
            | none => st
            | some entries =>
                if entries = [] then st
                else
                  { cache := some (entries ++ [{ key := csvKey url, value := body, tag := csvCacheTag }])
                    clearCache := st.clearCache }
          { result := .ok body, client := client, exportRequests := 1,
            evictions := evs, attempts := r.2, waitedSec := 5 * r.2 }
      | none =>
          { result := .error downloadErrorMsg, client := st, exportRequests := 1,
            evictions := evs, attempts := r.2, waitedSec := 5 * r.2 }

/-- `MemberfulCSV.download_csv` with the export POST and the polling endpoint
embedded as oracles.  The `if self.cache:` gate tests truthiness as in
`_execute_query`: an absent or empty cache bypasses eviction, flag
consumption and lookup and goes straight to the export-and-poll flow.  With a
truthy cache: a pending clear flag first evicts the CSV tag and is consumed;
a hit on the export URL returns the cached text without any network traffic;
a miss runs the export-and-poll flow of `downloadCsvFetch`. -/
def downloadCsv (postExport : Except String String)
    (poll : Nat → Option String) (st : MemberfulClient) (url : String) :
    CsvOutcome :=
  match st.cache with
  | none => downloadCsvFetch postExport poll st url 0
  | some entries0 =>
      if entries0 = [] then downloadCsvFetch postExport poll st url 0
      else
        let entries := if st.clearCache then evictTag entries0 csvCacheTag else entries0
        let evs := if st.clearCache then 1 else 0
        let st1 : MemberfulClient := { cache := some entries, clearCache := false }
        match lookupCache entries (csvKey url) with
        | some v =>
            { result := .ok v, client := st1, exportRequests := 0,
              evictions := evs, attempts := 0, waitedSec := 0 }
        | none => downloadCsvFetch postExport poll st1 url evs

/-- Concrete node A of the duplicate-tolerance scenario. -/
def nodeA : Node := { id := some "A", payload := "a" }

/-- Concrete node B of the duplicate-tolerance scenario. -/
def nodeB : Node := { id := some "B", payload := "b" }

/-- Concrete node C of the duplicate-tolerance scenario. -/
def nodeC : Node := { id := some "C", payload := "c" }

/-- The two pages of the duplicate-tolerance scenario: `totalCount = 3`, page
one carries A, B and a duplicate of A, page two carries C. -/
def dupPages : List NodesPage :=
  [{ totalCount := 3, edges := [nodeA, nodeB, nodeA] },
   { totalCount := 3, edges := [nodeC] }]

/-- The `trial_start` activity (day 1) of the trial reconciliation scenario. -/
def trialStartRow : Activity :=
  { type := .trial_start, accountId := "x", accountHasFeminineName := false,
    happenedOn := ⟨2024, 1, 1⟩, happenedAt := 1,
    orderCoupon := none, subscriptionInterval := none, subscriptionType := none }

/-- The `trial_end` activity (day 10) of the trial reconciliation scenario. -/
def trialEndRow : Activity :=
  { type := .trial_end, accountId := "x", accountHasFeminineName := false,
    happenedOn := ⟨2024, 1, 10⟩, happenedAt := 100,
    orderCoupon := none, subscriptionInterval := none, subscriptionType := none }

/-- The `order` activity (day 10, `subscription_type = individual`) of the
trial reconciliation scenario. -/
def trialOrderRow : Activity :=
  { type := .order, accountId := "x", accountHasFeminineName := false,
    happenedOn := ⟨2024, 1, 10⟩, happenedAt := 101,
    orderCoupon := none, subscriptionInterval := some .month,
    subscriptionType := some .individual }

/-- The synthetic account of the trial reconciliation scenario. -/
def trialDb : List Activity := [trialStartRow, trialEndRow, trialOrderRow]

/-- A record shared by the two overlapping batches of the upsert scenario. -/
def cexShared : Activity :=
  { type := .trial_start, accountId := "s", accountHasFeminineName := false,
    happenedOn := ⟨2024, 2, 1⟩, happenedAt := 1,
    orderCoupon := none, subscriptionInterval := none, subscriptionType := none }

/-- An order record carrying coupon COUPON1. -/
def cexCouponA : Activity :=
  { type := .order, accountId := "a", accountHasFeminineName := false,
    happenedOn := ⟨2024, 2, 5⟩, happenedAt := 10,
    orderCoupon := some "COUPON1", subscriptionInterval := none,
    subscriptionType := some .individual }

/-- The same unique key as `cexCouponA` but carrying coupon COUPON2. -/
def cexCouponB : Activity :=
  { cexCouponA with orderCoupon := some "COUPON2", happenedAt := 11 }

/-- A latest activity with a null subscription type that is not a
deactivation. -/
def nullTypeRow : Activity :=
  { type := .order, accountId := "a", accountHasFeminineName := false,
    happenedOn := ⟨2023, 3, 1⟩, happenedAt := 5,
    orderCoupon := none, subscriptionInterval := none, subscriptionType := none }

/-- C3: running `mark_trials` on the synthetic account (`trial_start` day 1,
`trial_end` day 10, `order` on day 10 with `subscription_type = individual`)
leaves every activity of days 1 through 9 with `subscription_type = trial` and
the day-10 `order` activity with `individual`; the day-10 `trial_end` activity
is relabelled `trial` by the second pass (the trial window is inclusive at its
end boundary). -/
theorem mark_trials_trial_window :
    (∀ r ∈ markTrials trialDb, PyDate.le r.happenedOn ⟨2024, 1, 9⟩ = true →
      r.subscriptionType = some SubscriptionType.trial)
    ∧ (∀ r ∈ markTrials trialDb, r.type = SubscriptionActivityType.order →
      r.subscriptionType = some SubscriptionType.individual)
    ∧ (∀ r ∈ markTrials trialDb, r.type = SubscriptionActivityType.trial_end →
      r.subscriptionType = some SubscriptionType.trial) := by
  refine ⟨?_, ?_, ?_⟩ <;> decide

/-- Witness for C3: the relabelled `trial_start` row is produced by the
reconciliation and classified as `trial`. -/
theorem mark_trials_trial_window_witness :
    ({ trialStartRow with subscriptionType := some SubscriptionType.trial }).subscriptionType
      = some SubscriptionType.trial :=
  mark_trials_trial_window.1 _ (by decide) (by decide)

/-- C7 counterexample: on the two-page scenario with a duplicate of A, the
full drain DOES raise an error (the nonzero-duplicate-counter assertion),
contrary to the claim that no error is raised. -/
theorem get_nodes_duplicates_counterexample :
    (getNodes dupPages).2 = some (GetNodesError.duplicateNodes 1) := by
  decide

/-- C7 amended: the drain yields exactly [A, B, C], the duplicate counter ends
at 1, and after the pages are exhausted the duplicate assertion raises. -/
theorem get_nodes_duplicates_scenario :
    (getNodes dupPages).1.yielded = [nodeA, nodeB, nodeC]
    ∧ (getNodes dupPages).1.duplicatesCount = 1
    ∧ (getNodes dupPages).2 = some (GetNodesError.duplicateNodes 1) := by
  refine ⟨?_, ?_, ?_⟩ <;> decide

/-- C6 counterexample: with a poll endpoint that would succeed on a tenth
attempt, `download_csv` raises `DownloadError` after only nine attempts —
the attempt budget is `range(1, 10)`, i.e. nine total attempts, not ten. -/
theorem download_csv_attempts_counterexample :
    (downloadCsv (.ok "location") (fun n => if n = 10 then some "csvdata" else none)
        { cache := none, clearCache := false } "u").result = .error downloadErrorMsg
    ∧ (downloadCsv (.ok "location") (fun n => if n = 10 then some "csvdata" else none)
        { cache := none, clearCache := false } "u").attempts = 9 := by
  refine ⟨?_, ?_⟩ <;> decide

/-- C4 counterexample: a first page reporting `hasNextPage = true` with a null
`endCursor` stops the pagination after a single request even though a further
page is available — pagination does not terminate exactly when `hasNextPage`
is false. -/
theorem query_pagination_counterexample :
    runQuery [⟨⟨true, none⟩, "p1"⟩, ⟨⟨false, some "c"⟩, "p2"⟩]
        = [("", ⟨⟨true, none⟩, "p1"⟩)]
    ∧ (⟨⟨true, none⟩, "p1"⟩ : QueryPage).pageInfo.hasNextPage = true := by
  refine ⟨?_, ?_⟩ <;> decide

/-- C2 counterexample: two overlapping batches (they share the record
`cexShared`) that disagree on the coupon of a common unique key produce
different stored states depending on the order in which they are applied. -/
theorem add_batches_order_counterexample :
    applyBatch (applyBatch emptyTable [cexShared, cexCouponA]) [cexShared, cexCouponB]
        (activityKey cexCouponA)
      ≠ applyBatch (applyBatch emptyTable [cexShared, cexCouponB]) [cexShared, cexCouponA]
        (activityKey cexCouponA) := by
  decide

/-- C8: whenever the breakdown is actually computed (the date is past the
legacy-data cutoff) and some account contributes a latest non-deactivation
activity with a null subscription type, `active_subscription_type_breakdown`
raises the data-integrity `ValueError` instead of counting the account under
any fallback type. -/
theorem breakdown_null_type_raises (db : List Activity) (d : PyDate) (r : Activity)
    (hmiss : isMissingSubscriptionsData d = false)
    (hmem : r ∈ activeListing db d)
    (hnull : r.subscriptionType = none) :
    activeSubscriptionTypeBreakdown db d = .error breakdownErrorMsg := by
  have hany : (activeListing db d).any
      (fun r => decide (r.subscriptionType = none)) = true := by
    rw [List.any_eq_true]
    exact ⟨r, hmem, by simp [hnull]⟩
  simp [activeSubscriptionTypeBreakdown, hmiss, hany]

/-- Witness for C8: a single non-deactivation activity with a null
subscription type makes the breakdown raise for March 2023. -/
theorem breakdown_null_type_raises_witness :
    activeSubscriptionTypeBreakdown [nullTypeRow] ⟨2023, 3, 31⟩
      = .error breakdownErrorMsg :=
  breakdown_null_type_raises [nullTypeRow] ⟨2023, 3, 31⟩ nullTypeRow
    (by decide) (by decide) (by decide)

/-- C9: for every date before 2023-02-24 and every date within February 2023,
the guarded query methods short-circuit to the no-data sentinel: the three
count methods return `None` and the breakdown returns the empty mapping, with
no error raised. -/
theorem legacy_cutoff_short_circuit (db : List Activity) (d : PyDate)
    (h : PyDate.lt d LEGACY_PLANS_DELETED_ON = true ∨ (d.year = 2023 ∧ d.month = 2)) :
    activeIndividualsCount db d = none
    ∧ activeIndividualsYearlyCount db d = none
    ∧ individualsSignupsCount db d = none
    ∧ activeSubscriptionTypeBreakdown db d = .ok [] := by
  have hm : isMissingSubscriptionsData d = true := by
    rcases h with h | ⟨hy, hmo⟩
    · simp [isMissingSubscriptionsData, h]
    · by_cases hlt : PyDate.lt d LEGACY_PLANS_DELETED_ON = true
      · simp [isMissingSubscriptionsData, hlt]
      · have hr : monthRange d = monthRange LEGACY_PLANS_DELETED_ON := by
          simp [monthRange, hy, hmo, LEGACY_PLANS_DELETED_ON]
        simp [isMissingSubscriptionsData, hlt, hr]
  refine ⟨?_, ?_, ?_, ?_⟩ <;>
    simp [activeIndividualsCount, activeIndividualsYearlyCount,
          individualsSignupsCount, activeSubscriptionTypeBreakdown, hm]

/-- Witness for C9: 2023-02-25 is not before the cutoff date yet lies in the
cutoff month, and every guarded method short-circuits there. -/
theorem legacy_cutoff_short_circuit_witness :
    activeIndividualsCount [nullTypeRow] ⟨2023, 2, 25⟩ = none
    ∧ activeIndividualsYearlyCount [nullTypeRow] ⟨2023, 2, 25⟩ = none
    ∧ individualsSignupsCount [nullTypeRow] ⟨2023, 2, 25⟩ = none
    ∧ activeSubscriptionTypeBreakdown [nullTypeRow] ⟨2023, 2, 25⟩ = .ok [] :=
  legacy_cutoff_short_circuit [nullTypeRow] ⟨2023, 2, 25⟩ (Or.inr ⟨rfl, rfl⟩)

/-- The polling loop performs at most as many attempts as its budget. -/
theorem pollAttempts_count_le (poll : Nat → Option String) :
    ∀ (k i : Nat), (pollAttempts poll k i).2 ≤ k := by
  intro k
  induction k with
  | zero => intro i; simp [pollAttempts]
  | succ k ih =>
      intro i
      unfold pollAttempts
      cases h : poll i with
      | some body => simp
      | none => simpa using Nat.succ_le_succ (ih (i + 1))

/-- When every attempt in the window fails, the loop exhausts its budget with
no body. -/
theorem pollAttempts_all_fail (poll : Nat → Option String) :
    ∀ (k i : Nat), (∀ j, i ≤ j → j < i + k → poll j = none) →
    pollAttempts poll k i = (none, k) := by
  intro k
  induction k with
  | zero => intro i _; rfl
  | succ k ih =>
      intro i h
      have hi : poll i = none := h i (Nat.le_refl i) (by omega)
      unfold pollAttempts
      rw [hi]
      have := ih (i + 1) (fun j hj1 hj2 => h j (by omega) (by omega))
      simp [this]

/-- When the first success happens at attempt `t` inside the window, the loop
returns its body after exactly `t - i + 1` attempts. -/
theorem pollAttempts_first_success (poll : Nat → Option String) :
    ∀ (k i t : Nat) (b : String), i ≤ t → t < i + k → poll t = some b →
    (∀ j, i ≤ j → j < t → poll j = none) →
    pollAttempts poll k i = (some b, t - i + 1) := by
  intro k
  induction k with
  | zero => intro i t b h1 h2 _ _; omega
  | succ k ih =>
      intro i t b h1 h2 hb hfail
      by_cases hit : i = t
      · subst hit
        unfold pollAttempts
        rw [hb]
        simp
      · have hi : poll i = none := hfail i (Nat.le_refl i) (by omega)
        unfold pollAttempts
        rw [hi]
        have := ih (i + 1) t b (by omega) (by omega) hb
          (fun j hj1 hj2 => hfail j (by omega) hj2)
        rw [this]
        have harith : t - (i + 1) + 1 + 1 = t - i + 1 := by omega
        simp [harith]

/-- The outcome of an uncached `download_csv` whose export POST succeeded, in
terms of the polling loop. -/
theorem downloadCsv_nocache (loc url : String) (poll : Nat → Option String) :
    downloadCsv (.ok loc) poll { cache := none, clearCache := false } url =
      { result := match (pollAttempts poll 9 1).1 with
                  | some body => .ok body
                  | none => .error downloadErrorMsg
        client := { cache := none, clearCache := false }
        exportRequests := 1
        evictions := 0
        attempts := (pollAttempts poll 9 1).2
        waitedSec := 5 * (pollAttempts poll 9 1).2 } := by
  unfold downloadCsv downloadCsvFetch
  cases h : (pollAttempts poll 9 1).1 <;> simp [h]

/-- C6 amended: the CSV export download waits five seconds before every poll
attempt, makes at most nine total attempts (`range(1, 10)`, i.e. eight retries
after the first failure), treats each failing poll as not-ready and keeps
going, raises `DownloadError` when all nine attempts fail, and returns the
body of the first successful attempt otherwise. -/
theorem download_csv_polling (loc url : String) (poll : Nat → Option String) :
    (downloadCsv (.ok loc) poll { cache := none, clearCache := false } url).attempts ≤ 9
    ∧ (downloadCsv (.ok loc) poll { cache := none, clearCache := false } url).waitedSec
        = 5 * (downloadCsv (.ok loc) poll { cache := none, clearCache := false } url).attempts
    ∧ ((∀ j, 1 ≤ j → j ≤ 9 → poll j = none) →
        (downloadCsv (.ok loc) poll { cache := none, clearCache := false } url).result
            = .error downloadErrorMsg
        ∧ (downloadCsv (.ok loc) poll { cache := none, clearCache := false } url).attempts = 9)
    ∧ (∀ i b, 1 ≤ i → i ≤ 9 → poll i = some b → (∀ j, 1 ≤ j → j < i → poll j = none) →
        (downloadCsv (.ok loc) poll { cache := none, clearCache := false } url).result = .ok b
        ∧ (downloadCsv (.ok loc) poll { cache := none, clearCache := false } url).attempts = i) := by
  rw [downloadCsv_nocache]
  refine ⟨?_, ?_, ?_, ?_⟩
  · simpa using pollAttempts_count_le poll 9 1
  · rfl
  · intro hfail
    have h9 : pollAttempts poll 9 1 = (none, 9) :=
      pollAttempts_all_fail poll 9 1 (fun j hj1 hj2 => hfail j hj1 (by omega))
    rw [h9]
    exact ⟨rfl, rfl⟩
  · intro i b hi1 hi9 hb hfail
    have hs : pollAttempts poll 9 1 = (some b, i - 1 + 1) :=
      pollAttempts_first_success poll 9 1 i b hi1 (by omega) hb hfail
    rw [hs]
    constructor
    · rfl
    · simp only
      omega

/-- Witness for C6: with a poll endpoint succeeding on the fourth attempt the
download returns the body after exactly four attempts, having slept five
seconds before each of them. -/
theorem download_csv_polling_witness :
    (downloadCsv (.ok "location") (fun n => if n = 4 then some "csvdata" else none)
        { cache := none, clearCache := false } "u").result = .ok "csvdata"
    ∧ (downloadCsv (.ok "location") (fun n => if n = 4 then some "csvdata" else none)
        { cache := none, clearCache := false } "u").attempts = 4 :=
  (download_csv_polling "location" "u"
      (fun n => if n = 4 then some "csvdata" else none)).2.2.2 4 "csvdata"
    (by decide) (by decide) (by decide)
    (fun j hj1 hj2 => by
      have : j ≠ 4 := by omega
      simp [this])

/-- The first entry of a query trace carries the starting cursor and the first
scripted response. -/
theorem queryTrace_head (script : List QueryPage) (c : String) :
    (queryTrace script c)[0]? = script[0]?.map (fun p => (c, p)) := by
  cases script <;> simp [queryTrace]

/-- Every entry of a query trace is the response the script supplied at the
same position. -/
theorem queryTrace_entry (script : List QueryPage) :
    ∀ (c : String) (i : Nat) (cur : String) (p : QueryPage),
    (queryTrace script c)[i]? = some (cur, p) → script[i]? = some p := by
  induction script with
  | nil => intro c i cur p h; simp [queryTrace] at h
  | cons r rest ih =>
      intro c i cur p h
      cases i with
      | zero =>
          simp [queryTrace] at h
          simp [h.2]
      | succ j =>
          simp only [queryTrace, List.getElem?_cons_succ] at h ⊢
          cases hnp : r.pageInfo.hasNextPage with
          | false => rw [hnp] at h; simp at h
          | true =>
              rw [hnp] at h
              cases hec : r.pageInfo.endCursor with
              | none => rw [hec] at h; simp at h
              | some c2 =>
                  rw [hec] at h
                  simp only [if_true] at h
                  exact ih c2 j cur p h


/-- Between two consecutive requests of a query trace, the earlier response
reported `hasNextPage = true` and the cursor of the later request is exactly
its `endCursor`. -/
theorem queryTrace_adjacent (script : List QueryPage) :
    ∀ (c : String) (i : Nat) (cur : String) (p : QueryPage) (cur' : String) (p' : QueryPage),
    (queryTrace script c)[i]? = some (cur, p) →
    (queryTrace script c)[i + 1]? = some (cur', p') →
    p.pageInfo.hasNextPage = true ∧ p.pageInfo.endCursor = some cur' := by
  induction script with
  | nil => intro c i cur p cur' p' h1 _; simp [queryTrace] at h1
  | cons r rest ih =>
      obtain ⟨⟨hnp, hec⟩, pay⟩ := r
      intro c i cur p cur' p' h1 h2
      cases i with
      | zero =>
          simp only [queryTrace, List.getElem?_cons_zero, Option.some.injEq,
            Prod.mk.injEq] at h1
          obtain ⟨-, hp⟩ := h1
          simp only [queryTrace, List.getElem?_cons_succ] at h2
          cases hnp with
          | false => simp at h2
          | true =>
              cases hec with
              | none => simp at h2
              | some c2 =>
                  rw [if_pos rfl] at h2
                  rw [queryTrace_head] at h2
                  cases hr : rest[0]? with
                  | none => rw [hr] at h2; simp at h2
                  | some q =>
                      rw [hr] at h2
                      simp at h2
                      rw [← hp]
                      exact ⟨rfl, by simp [h2.1]⟩
      | succ j =>
          simp only [queryTrace, List.getElem?_cons_succ] at h1 h2
          cases hnp with
          | false => simp at h1
          | true =>
              cases hec with
              | none => simp at h1
              | some c2 =>
                  rw [if_pos rfl] at h1 h2
                  exact ih c2 j cur p cur' p' h1 h2

/-- Whenever a response reports `hasNextPage = true` with a non-null
`endCursor` and the script has a further response, the trace continues with a
request whose cursor is that `endCursor`. -/
theorem queryTrace_continues (script : List QueryPage) :
    ∀ (c : String) (i : Nat) (cur : String) (p : QueryPage) (c2 : String) (p2 : QueryPage),
    (queryTrace script c)[i]? = some (cur, p) →
    p.pageInfo.hasNextPage = true →
    p.pageInfo.endCursor = some c2 →
    script[i + 1]? = some p2 →
    (queryTrace script c)[i + 1]? = some (c2, p2) := by
  induction script with
  | nil => intro c i cur p c2 p2 h1 _ _ _; simp [queryTrace] at h1
  | cons r rest ih =>
      obtain ⟨⟨hnp, hec⟩, pay⟩ := r
      intro c i cur p c2 p2 h1 hpnp hpec hs
      cases i with
      | zero =>
          simp only [queryTrace, List.getElem?_cons_zero, Option.some.injEq,
            Prod.mk.injEq] at h1
          obtain ⟨-, hp⟩ := h1
          rw [← hp] at hpnp hpec
          simp only at hpnp hpec
          subst hpnp
          subst hpec
          simp only [List.getElem?_cons_succ] at hs
          simp only [queryTrace, List.getElem?_cons_succ]
          simp [queryTrace_head, hs]
      | succ j =>
          simp only [queryTrace, List.getElem?_cons_succ] at h1 ⊢
          simp only [List.getElem?_cons_succ] at hs
          cases hnp with
          | false => simp at h1
          | true =>
              cases hec with
              | none => simp at h1
              | some cr =>
                  rw [if_pos rfl] at h1 ⊢
                  exact ih cr j cur p c2 p2 h1 hpnp hpec hs

/-- C4 amended: the first request of `_query` is made with the empty-string
cursor; the cursor of request `n + 1` equals the `endCursor` returned by
request `n`, whose `hasNextPage` was necessarily true (so pagination never
continues after `hasNextPage` is false); and pagination keeps going after any
response whose `hasNextPage` is true, provided its `endCursor` is not null (a
null `endCursor` ends the loop even under a true `hasNextPage`, since the
loop runs while the cursor is not `None`). -/
theorem query_pagination_cursors (script : List QueryPage) :
    (∀ (p : QueryPage) (ps : List QueryPage), script = p :: ps →
      (runQuery script)[0]? = some ("", p))
    ∧ (∀ (i : Nat) (cur : String) (p : QueryPage) (cur' : String) (p' : QueryPage),
        (runQuery script)[i]? = some (cur, p) →
        (runQuery script)[i + 1]? = some (cur', p') →
        p.pageInfo.hasNextPage = true ∧ p.pageInfo.endCursor = some cur')
    ∧ (∀ (i : Nat) (cur : String) (p : QueryPage) (c2 : String) (p2 : QueryPage),
        (runQuery script)[i]? = some (cur, p) →
        p.pageInfo.hasNextPage = true →
        p.pageInfo.endCursor = some c2 →
        script[i + 1]? = some p2 →
        (runQuery script)[i + 1]? = some (c2, p2)) := by
  refine ⟨?_, ?_, ?_⟩
  · intro p ps hs
    subst hs
    rw [runQuery, queryTrace_head]
    simp
  · intro i cur p cur' p' h1 h2
    exact queryTrace_adjacent script "" i cur p cur' p' h1 h2
  · intro i cur p c2 p2 h1 hnp hec hs
    exact queryTrace_continues script "" i cur p c2 p2 h1 hnp hec hs

/-- Witness for C4: on a two-page script whose first page points at cursor
CUR1, the engine requests page one with the empty cursor, requests page two
with cursor CUR1, and that consecutive pair satisfies the cursor-chaining
property. -/
theorem query_pagination_cursors_witness :
    (runQuery [⟨⟨true, some "CUR1"⟩, "p1"⟩, ⟨⟨false, none⟩, "p2"⟩])[0]?
        = some ("", ⟨⟨true, some "CUR1"⟩, "p1"⟩)
    ∧ (runQuery [⟨⟨true, some "CUR1"⟩, "p1"⟩, ⟨⟨false, none⟩, "p2"⟩])[1]?
        = some ("CUR1", ⟨⟨false, none⟩, "p2"⟩)
    ∧ (⟨⟨true, some "CUR1"⟩, "p1"⟩ : QueryPage).pageInfo.hasNextPage = true :=
  ⟨(query_pagination_cursors [⟨⟨true, some "CUR1"⟩, "p1"⟩, ⟨⟨false, none⟩, "p2"⟩]).1
      ⟨⟨true, some "CUR1"⟩, "p1"⟩ [⟨⟨false, none⟩, "p2"⟩] rfl,
   (query_pagination_cursors [⟨⟨true, some "CUR1"⟩, "p1"⟩, ⟨⟨false, none⟩, "p2"⟩]).2.2
      0 "" ⟨⟨true, some "CUR1"⟩, "p1"⟩ "CUR1" ⟨⟨false, none⟩, "p2"⟩
      (by decide) rfl rfl (by decide),
   ((query_pagination_cursors [⟨⟨true, some "CUR1"⟩, "p1"⟩, ⟨⟨false, none⟩, "p2"⟩]).2.1
      0 "" ⟨⟨true, some "CUR1"⟩, "p1"⟩ "CUR1" ⟨⟨false, none⟩, "p2"⟩
      (by decide) (by decide)).1⟩

/-- Appending a fresh entry for a key that was missing makes the lookup of
that key return the new value. -/
theorem lookupCache_append_self (entries : List CacheEntry) (k : QueryKey)
    (v tag : String) (h : lookupCache entries k = none) :
    lookupCache (entries ++ [{ key := k, value := v, tag := tag }]) k = some v := by
  unfold lookupCache at h ⊢
  rw [List.find?_append]
  have hf : entries.find? (fun e => decide (e.key = k)) = none := by
    cases hc : entries.find? (fun e => decide (e.key = k)) with
    | none => rfl
    | some e => rw [hc] at h; simp at h
  rw [hf]
  simp [List.find?]

/-- C5 counterexample: a present-but-empty cache is falsy under the
`if self.cache:` truthiness gate of `_execute_query`, so two identical
fetches each hit the network (two calls, not one) and a set clear flag is not
consumed. -/
theorem execute_query_empty_cache_counterexample :
    (executeQuery (fun _ => Except.ok "r1")
        { cache := some [], clearCache := false }
        { query := "q1", variableValues := [] }).networkCalls = 1
    ∧ (executeQuery (fun _ => Except.ok "r1")
        (executeQuery (fun _ => Except.ok "r1")
          { cache := some [], clearCache := false }
          { query := "q1", variableValues := [] }).client
        { query := "q1", variableValues := [] }).networkCalls = 1
    ∧ (executeQuery (fun _ => Except.ok "r1")
        { cache := some [], clearCache := true }
        { query := "q1", variableValues := [] }).client.clearCache = true := by
  refine ⟨?_, ?_, ?_⟩ <;> rfl

/-- C5 amended: with a nonempty cache present, a successful fetch of a fresh
key makes exactly one network call and a repeat of the same fetch is served
from the cache with no network call; a failed fetch propagates its error and
leaves the cache untouched; a set clear flag over a nonempty cache causes
exactly one eviction, of this client tag only, immediately before the next
lookup, after which the flag is consumed and a call with a consumed flag
performs no eviction; a present-but-empty cache is falsy (diskcache
truthiness), so the call passes straight through to the network, consuming
nothing and writing nothing; and the CSV export path behaves the same way for
its URL key, including that an exhausted download never populates the cache. -/
theorem execute_query_cache :
    (∀ (fetch : QueryKey → Except String String) (entries : List CacheEntry)
        (q : QueryKey) (v : String),
      entries ≠ [] → fetch q = .ok v → lookupCache entries q = none →
      (executeQuery fetch { cache := some entries, clearCache := false } q).networkCalls = 1
      ∧ (executeQuery fetch { cache := some entries, clearCache := false } q).result = .ok v
      ∧ (executeQuery fetch
          (executeQuery fetch { cache := some entries, clearCache := false } q).client
          q).networkCalls = 0
      ∧ (executeQuery fetch
          (executeQuery fetch { cache := some entries, clearCache := false } q).client
          q).result = .ok v)
    ∧ (∀ (fetch : QueryKey → Except String String) (entries : List CacheEntry)
        (q : QueryKey) (e : String),
      fetch q = .error e → lookupCache entries q = none →
      (executeQuery fetch { cache := some entries, clearCache := false } q).result = .error e
      ∧ (executeQuery fetch { cache := some entries, clearCache := false } q).client
          = { cache := some entries, clearCache := false })
    ∧ (∀ (fetch : QueryKey → Except String String) (entries : List CacheEntry)
        (q : QueryKey),
      entries ≠ [] →
      (executeQuery fetch { cache := some entries, clearCache := true } q).evictions = 1
      ∧ (executeQuery fetch { cache := some entries, clearCache := true } q).client.clearCache
          = false
      ∧ ((executeQuery fetch { cache := some entries, clearCache := true } q).client.cache
            = some (evictTag entries apiCacheTag)
          ∨ ∃ v, (executeQuery fetch { cache := some entries, clearCache := true } q).client.cache
            = some (evictTag entries apiCacheTag
                      ++ [{ key := q, value := v, tag := apiCacheTag }])))
    ∧ (∀ (fetch : QueryKey → Except String String) (st : MemberfulClient) (q : QueryKey),
      st.clearCache = false → (executeQuery fetch st q).evictions = 0)
    ∧ (∀ (fetch : QueryKey → Except String String) (q : QueryKey) (b : Bool),
      (executeQuery fetch { cache := some [], clearCache := b } q).networkCalls = 1
      ∧ (executeQuery fetch { cache := some [], clearCache := b } q).client
          = { cache := some [], clearCache := b }
      ∧ (executeQuery fetch { cache := some [], clearCache := b } q).result = fetch q)
    ∧ (∀ (postExport : Except String String) (poll : Nat → Option String)
        (entries : List CacheEntry) (url v : String),
      lookupCache entries (csvKey url) = some v →
      (downloadCsv postExport poll { cache := some entries, clearCache := false } url).exportRequests = 0
      ∧ (downloadCsv postExport poll { cache := some entries, clearCache := false } url).result = .ok v)
    ∧ (∀ (loc : String) (poll : Nat → Option String) (entries : List CacheEntry)
        (url body : String),
      entries ≠ [] →
      lookupCache entries (csvKey url) = none →
      (pollAttempts poll 9 1).1 = some body →
      (downloadCsv (.ok loc) poll { cache := some entries, clearCache := false } url).result
          = .ok body
      ∧ (downloadCsv (.ok loc) poll
          (downloadCsv (.ok loc) poll { cache := some entries, clearCache := false } url).client
          url).exportRequests = 0
      ∧ (downloadCsv (.ok loc) poll
          (downloadCsv (.ok loc) poll { cache := some entries, clearCache := false } url).client
          url).result = .ok body)
    ∧ (∀ (loc : String) (poll : Nat → Option String) (entries : List CacheEntry)
        (url : String),
      lookupCache entries (csvKey url) = none →
      (pollAttempts poll 9 1).1 = none →
      (downloadCsv (.ok loc) poll { cache := some entries, clearCache := false } url).result
          = .error downloadErrorMsg
      ∧ (downloadCsv (.ok loc) poll { cache := some entries, clearCache := false } url).client
          = { cache := some entries, clearCache := false }) := by
  refine ⟨?_, ?_, ?_, ?_, ?_, ?_, ?_, ?_⟩
  · intro fetch entries q v hne hok hmiss
    have hne2 : entries ++ [{ key := q, value := v, tag := apiCacheTag }] ≠ [] := by
      simp
    have hc : (executeQuery fetch { cache := some entries, clearCache := false } q).client
        = { cache := some (entries ++ [{ key := q, value := v, tag := apiCacheTag }]),
            clearCache := false } := by
      simp [executeQuery, hne, hmiss, hok]
    have hl := lookupCache_append_self entries q v apiCacheTag hmiss
    refine ⟨by simp [executeQuery, hne, hmiss, hok], by simp [executeQuery, hne, hmiss, hok],
      ?_, ?_⟩
    · rw [hc]; simp [executeQuery, hne2, hl]
    · rw [hc]; simp [executeQuery, hne2, hl]
  · intro fetch entries q e herr hmiss
    by_cases hne : entries = []
    · subst hne
      exact ⟨by simp [executeQuery, herr], by simp [executeQuery]⟩
    · exact ⟨by simp [executeQuery, hne, hmiss, herr],
             by simp [executeQuery, hne, hmiss, herr]⟩
  · intro fetch entries q hne
    refine ⟨?_, ?_, ?_⟩
    · cases hl : lookupCache (evictTag entries apiCacheTag) q with
      | some v => simp [executeQuery, hne, hl]
      | none =>
          cases hf : fetch q with
          | error e => simp [executeQuery, hne, hl, hf]
          | ok v =>
              by_cases hev : evictTag entries apiCacheTag = []
              · rw [hev] at hl
                simp [executeQuery, hne, hl, hf, hev]
              · simp [executeQuery, hne, hl, hf, hev]
    · cases hl : lookupCache (evictTag entries apiCacheTag) q with
      | some v => simp [executeQuery, hne, hl]
      | none =>
          cases hf : fetch q with
          | error e => simp [executeQuery, hne, hl, hf]
          | ok v =>
              by_cases hev : evictTag entries apiCacheTag = []
              · rw [hev] at hl
                simp [executeQuery, hne, hl, hf, hev]
              · simp [executeQuery, hne, hl, hf, hev]
    · cases hl : lookupCache (evictTag entries apiCacheTag) q with
      | some v => left; simp [executeQuery, hne, hl]
      | none =>
          cases hf : fetch q with
          | error e => left; simp [executeQuery, hne, hl, hf]
          | ok v =>
              by_cases hev : evictTag entries apiCacheTag = []
              · left
                rw [hev] at hl
                simp [executeQuery, hne, hl, hf, hev]
              · right; exact ⟨v, by simp [executeQuery, hne, hl, hf, hev]⟩
  · intro fetch st q hflag
    cases hcache : st.cache with
    | none => simp [executeQuery, hcache]
    | some entries =>
        by_cases hne : entries = []
        · simp [executeQuery, hcache, hne]
        · cases hl : lookupCache entries q with
          | some v => simp [executeQuery, hcache, hne, hflag, hl]
          | none =>
              cases hf : fetch q with
              | error e => simp [executeQuery, hcache, hne, hflag, hl, hf]
              | ok v =>
                  by_cases hev : entries = []
                  · exact absurd hev hne
                  · simp [executeQuery, hcache, hne, hflag, hl, hf, hev]
  · intro fetch q b
    exact ⟨by simp [executeQuery], by simp [executeQuery], by simp [executeQuery]⟩
  · intro postExport poll entries url v hhit
    have hne : entries ≠ [] := by
      intro h
      subst h
      simp [lookupCache] at hhit
    exact ⟨by simp [downloadCsv, hne, hhit], by simp [downloadCsv, hne, hhit]⟩
  · intro loc poll entries url body hne hmiss hbody
    have hne2 : entries ++ [{ key := csvKey url, value := body, tag := csvCacheTag }] ≠ [] := by
      simp
    have hc : (downloadCsv (.ok loc) poll { cache := some entries, clearCache := false } url).client
        = { cache := some (entries
              ++ [{ key := csvKey url, value := body, tag := csvCacheTag }]),
            clearCache := false } := by
      simp [downloadCsv, downloadCsvFetch, hne, hmiss, hbody]
    have hl := lookupCache_append_self entries (csvKey url) body csvCacheTag hmiss
    refine ⟨by simp [downloadCsv, downloadCsvFetch, hne, hmiss, hbody], ?_, ?_⟩
    · rw [hc]; simp [downloadCsv, hne2, hl]
    · rw [hc]; simp [downloadCsv, hne2, hl]
  · intro loc poll entries url hmiss hfail
    by_cases hne : entries = []
    · subst hne
      exact ⟨by simp [downloadCsv, downloadCsvFetch, hfail],
             by simp [downloadCsv, downloadCsvFetch, hfail]⟩
    · exact ⟨by simp [downloadCsv, downloadCsvFetch, hne, hmiss, hfail],
             by simp [downloadCsv, downloadCsvFetch, hne, hmiss, hfail]⟩

/-- Witness for C5: with a cache seeded with one unrelated entry and a network
returning R1 for query Q1, two identical calls make exactly one network
request in total, the second being served from the cache with the same
result. -/
theorem execute_query_cache_witness :
    (executeQuery
        (fun k => if k = ({ query := "q1", variableValues := [] } : QueryKey)
          then Except.ok "r1" else Except.error "x")
        { cache := some [{ key := { query := "seed", variableValues := [] },
                           value := "v0", tag := "seedtag" }],
          clearCache := false }
        { query := "q1", variableValues := [] }).networkCalls = 1
    ∧ (executeQuery
        (fun k => if k = ({ query := "q1", variableValues := [] } : QueryKey)
          then Except.ok "r1" else Except.error "x")
        { cache := some [{ key := { query := "seed", variableValues := [] },
                           value := "v0", tag := "seedtag" }],
          clearCache := false }
        { query := "q1", variableValues := [] }).result = .ok "r1"
    ∧ (executeQuery
        (fun k => if k = ({ query := "q1", variableValues := [] } : QueryKey)
          then Except.ok "r1" else Except.error "x")
        (executeQuery
          (fun k => if k = ({ query := "q1", variableValues := [] } : QueryKey)
            then Except.ok "r1" else Except.error "x")
          { cache := some [{ key := { query := "seed", variableValues := [] },
                             value := "v0", tag := "seedtag" }],
            clearCache := false }
          { query := "q1", variableValues := [] }).client
        { query := "q1", variableValues := [] }).networkCalls = 0
    ∧ (executeQuery
        (fun k => if k = ({ query := "q1", variableValues := [] } : QueryKey)
          then Except.ok "r1" else Except.error "x")
        (executeQuery
          (fun k => if k = ({ query := "q1", variableValues := [] } : QueryKey)
            then Except.ok "r1" else Except.error "x")
          { cache := some [{ key := { query := "seed", variableValues := [] },
                             value := "v0", tag := "seedtag" }],
            clearCache := false }
          { query := "q1", variableValues := [] }).client
        { query := "q1", variableValues := [] }).result = .ok "r1" :=
  execute_query_cache.1
    (fun k => if k = ({ query := "q1", variableValues := [] } : QueryKey)
      then Except.ok "r1" else Except.error "x")
    [{ key := { query := "seed", variableValues := [] },
       value := "v0", tag := "seedtag" }]
    { query := "q1", variableValues := [] } "r1" (by decide) (by decide) (by decide)

/-- The inner loop never touches the declared total count. -/
theorem processEdge_declared (st : GetNodesState) (n : Node) :
    (processEdge st n).declared = st.declared := by
  unfold processEdge
  split <;> rfl

/-- The inner loop preserves the dedup invariant: the identities of the
yielded nodes are exactly the seen set (in reverse order of first sight), the
seen set has no repetition, and the node counter counts yields plus
duplicates. -/
theorem processEdge_invariant (st : GetNodesState) (n : Node)
    (h1 : st.yielded.map nodeId = st.seen.reverse)
    (h2 : st.seen.Nodup)
    (h3 : st.nodesCount = st.yielded.length + st.duplicatesCount) :
    (processEdge st n).yielded.map nodeId = (processEdge st n).seen.reverse
    ∧ (processEdge st n).seen.Nodup
    ∧ (processEdge st n).nodesCount
        = (processEdge st n).yielded.length + (processEdge st n).duplicatesCount := by
  unfold processEdge
  by_cases hmem : nodeId n ∈ st.seen
  · simp only [hmem, dif_pos]
    exact ⟨h1, h2, by omega⟩
  · simp only [hmem, dif_neg, not_false_iff]
    refine ⟨?_, ?_, ?_⟩
    · simp [h1, List.reverse_cons]
    · exact List.nodup_cons.mpr ⟨hmem, h2⟩
    · simp [h3]
      omega

/-- Folding the inner loop over the edges never touches the declared count. -/
theorem foldl_processEdge_declared (edges : List Node) :
    ∀ st : GetNodesState, (edges.foldl processEdge st).declared = st.declared := by
  induction edges with
  | nil => intro st; rfl
  | cons n rest ih =>
      intro st
      rw [List.foldl_cons, ih (processEdge st n), processEdge_declared]

/-- Folding the inner loop over the edges preserves the dedup invariant. -/
theorem foldl_processEdge_invariant (edges : List Node) :
    ∀ st : GetNodesState,
    st.yielded.map nodeId = st.seen.reverse →
    st.seen.Nodup →
    st.nodesCount = st.yielded.length + st.duplicatesCount →
    (edges.foldl processEdge st).yielded.map nodeId
        = (edges.foldl processEdge st).seen.reverse
    ∧ (edges.foldl processEdge st).seen.Nodup
    ∧ (edges.foldl processEdge st).nodesCount
        = (edges.foldl processEdge st).yielded.length
          + (edges.foldl processEdge st).duplicatesCount := by
  induction edges with
  | nil => intro st h1 h2 h3; exact ⟨h1, h2, h3⟩
  | cons n rest ih =>
      intro st h1 h2 h3
      rw [List.foldl_cons]
      obtain ⟨g1, g2, g3⟩ := processEdge_invariant st n h1 h2 h3
      exact ih (processEdge st n) g1 g2 g3


/-- The outer loop body records the declared count of the first page and keeps
it afterwards. -/
theorem processPage_declared (st : GetNodesState) (p : NodesPage) :
    (processPage st p).1.declared = some (st.declared.getD p.totalCount) := by
  unfold processPage
  split
  · rfl
  · rw [foldl_processEdge_declared]

/-- The outer loop body preserves the dedup invariant. -/
theorem processPage_invariant (st : GetNodesState) (p : NodesPage)
    (h1 : st.yielded.map nodeId = st.seen.reverse)
    (h2 : st.seen.Nodup)
    (h3 : st.nodesCount = st.yielded.length + st.duplicatesCount) :
    (processPage st p).1.yielded.map nodeId = (processPage st p).1.seen.reverse
    ∧ (processPage st p).1.seen.Nodup
    ∧ (processPage st p).1.nodesCount
        = (processPage st p).1.yielded.length + (processPage st p).1.duplicatesCount := by
  unfold processPage
  split
  · exact ⟨h1, h2, h3⟩
  · exact foldl_processEdge_invariant p.edges _ h1 h2 h3

/-- Draining the pages preserves the dedup invariant. -/
theorem runPages_invariant (pages : List NodesPage) :
    ∀ st : GetNodesState,
    st.yielded.map nodeId = st.seen.reverse →
    st.seen.Nodup →
    st.nodesCount = st.yielded.length + st.duplicatesCount →
    (runPages st pages).1.yielded.map nodeId = (runPages st pages).1.seen.reverse
    ∧ (runPages st pages).1.seen.Nodup
    ∧ (runPages st pages).1.nodesCount
        = (runPages st pages).1.yielded.length
          + (runPages st pages).1.duplicatesCount := by
  induction pages with
  | nil => intro st h1 h2 h3; exact ⟨h1, h2, h3⟩
  | cons p ps ih =>
      intro st h1 h2 h3
      obtain ⟨g1, g2, g3⟩ := processPage_invariant st p h1 h2 h3
      unfold runPages
      cases hpp : processPage st p with
      | mk st1 oe =>
          rw [hpp] at g1 g2 g3
          cases oe with
          | some e => exact ⟨g1, g2, g3⟩
          | none => exact ih st1 g1 g2 g3

/-- Once the declared count is fixed, draining more pages keeps it. -/
theorem runPages_declared (pages : List NodesPage) :
    ∀ (st : GetNodesState) (c : Nat), st.declared = some c →
    (runPages st pages).1.declared = some c := by
  induction pages with
  | nil => intro st c h; exact h
  | cons p ps ih =>
      intro st c h
      have hd : (processPage st p).1.declared = some c := by
        rw [processPage_declared, h]
        rfl
      unfold runPages
      cases hpp : processPage st p with
      | mk st1 oe =>
          rw [hpp] at hd
          cases oe with
          | some e => exact hd
          | none => exact ih st1 c hd

/-- Over a nonempty drain, the declared count is the total count of the first
page. -/
theorem runPages_cons_declared (st : GetNodesState) (p : NodesPage)
    (ps : List NodesPage) :
    (runPages st (p :: ps)).1.declared = some (st.declared.getD p.totalCount) := by
  have hd := processPage_declared st p
  unfold runPages
  cases hpp : processPage st p with
  | mk st1 oe =>
      rw [hpp] at hd
      cases oe with
      | some e => exact hd
      | none => exact runPages_declared ps st1 _ hd

/-- A drain that stopped on a raised page-level assertion is reported as is. -/
theorem getNodes_of_runPages_err (pages : List NodesPage) (st : GetNodesState)
    (e : GetNodesError) (h : runPages initialNodesState pages = (st, some e)) :
    getNodes pages = (st, some e) := by
  unfold getNodes
  rw [h]

/-- A completed drain with a nonzero duplicate counter raises the duplicate
assertion. -/
theorem getNodes_of_runPages_dup (pages : List NodesPage) (st : GetNodesState)
    (h : runPages initialNodesState pages = (st, none))
    (hdup : st.duplicatesCount ≠ 0) :
    getNodes pages = (st, some (.duplicateNodes st.duplicatesCount)) := by
  unfold getNodes
  rw [h]
  exact if_pos hdup

/-- A completed drain with no duplicates but a count disagreement raises the
count assertion. -/
theorem getNodes_of_runPages_mismatch (pages : List NodesPage) (st : GetNodesState)
    (h : runPages initialNodesState pages = (st, none))
    (hdup : st.duplicatesCount = 0)
    (hcnt : st.declared ≠ some st.nodesCount) :
    getNodes pages = (st, some (.countMismatch st.declared st.nodesCount)) := by
  unfold getNodes
  rw [h]
  exact (if_neg (by simp [hdup])).trans (if_pos hcnt)

/-- A completed drain passing both final assertions raises nothing. -/
theorem getNodes_of_runPages_ok (pages : List NodesPage) (st : GetNodesState)
    (h : runPages initialNodesState pages = (st, none))
    (hdup : st.duplicatesCount = 0)
    (hcnt : st.declared = some st.nodesCount) :
    getNodes pages = (st, none) := by
  unfold getNodes
  rw [h]
  exact (if_neg (by simp [hdup])).trans (if_neg (by simp [hcnt]))

/-- The final state reported by `getNodes` is the state after the drain (the
two final assertions only decide the error). -/
theorem getNodes_fst (pages : List NodesPage) :
    (getNodes pages).1 = (runPages initialNodesState pages).1 := by
  cases hrun : runPages initialNodesState pages with
  | mk st oe =>
      cases oe with
      | some e => rw [getNodes_of_runPages_err _ _ _ hrun]
      | none =>
          by_cases hdup : st.duplicatesCount = 0
          · by_cases hcnt : st.declared = some st.nodesCount
            · rw [getNodes_of_runPages_ok _ _ hrun hdup hcnt]
            · rw [getNodes_of_runPages_mismatch _ _ hrun hdup hcnt]
          · rw [getNodes_of_runPages_dup _ _ hrun hdup]

/-- C1: over every full drain of `get_nodes`, each node identity occurs at
most once among the yielded nodes; when the drain completes without raising,
the duplicate counter is zero and the number of yielded nodes equals the
declared `totalCount` of the first page; and a nonzero duplicate counter
always makes the drain raise. -/
theorem getNodes_dedup_total (pages : List NodesPage) :
    ((getNodes pages).1.yielded.map nodeId).Nodup
    ∧ (∀ (p : NodesPage) (ps : List NodesPage), pages = p :: ps →
        (getNodes pages).2 = none →
        (getNodes pages).1.duplicatesCount = 0
        ∧ (getNodes pages).1.yielded.length = p.totalCount)
    ∧ ((getNodes pages).1.duplicatesCount ≠ 0 → (getNodes pages).2 ≠ none) := by
  have hinv := runPages_invariant pages initialNodesState rfl List.nodup_nil rfl
  have hfst := getNodes_fst pages
  refine ⟨?_, ?_, ?_⟩
  · rw [hfst, hinv.1]
    exact List.nodup_reverse.mpr hinv.2.1
  · intro p ps hp hok
    subst hp
    have hdecl := runPages_cons_declared initialNodesState p ps
    cases hrun : runPages initialNodesState (p :: ps) with
    | mk st oe =>
        rw [hrun] at hinv hdecl
        cases oe with
        | some e =>
            rw [getNodes_of_runPages_err _ _ _ hrun] at hok
            exact absurd hok (by simp)
        | none =>
            by_cases hdup : st.duplicatesCount = 0
            · by_cases hcnt : st.declared = some st.nodesCount
              · rw [getNodes_of_runPages_ok _ _ hrun hdup hcnt]
                refine ⟨hdup, ?_⟩
                have hc : st.nodesCount = st.yielded.length + st.duplicatesCount :=
                  hinv.2.2
                have hpt : st.declared = some p.totalCount := by
                  simpa using hdecl
                rw [hcnt] at hpt
                have : st.nodesCount = p.totalCount := by
                  exact Option.some.inj hpt
                simp only
                omega
              · rw [getNodes_of_runPages_mismatch _ _ hrun hdup hcnt] at hok
                exact absurd hok (by simp)
            · rw [getNodes_of_runPages_dup _ _ hrun hdup] at hok
              exact absurd hok (by simp)
  · intro hdup hok
    rw [hfst] at hdup
    cases hrun : runPages initialNodesState pages with
    | mk st oe =>
        rw [hrun] at hdup
        cases oe with
        | some e =>
            rw [getNodes_of_runPages_err _ _ _ hrun] at hok
            exact absurd hok (by simp)
        | none =>
            rw [getNodes_of_runPages_dup _ _ hrun hdup] at hok
            exact absurd hok (by simp)

/-- Witness for C1: a clean one-page drain of two distinct nodes finishes with
a zero duplicate counter and yields exactly the declared two nodes. -/
theorem getNodes_dedup_total_witness :
    (getNodes [{ totalCount := 2, edges := [nodeA, nodeB] }]).1.duplicatesCount = 0
    ∧ (getNodes [{ totalCount := 2, edges := [nodeA, nodeB] }]).1.yielded.length = 2 :=
  (getNodes_dedup_total [{ totalCount := 2, edges := [nodeA, nodeB] }]).2.1
    { totalCount := 2, edges := [nodeA, nodeB] } [] rfl (by decide)

/-- The slot of a key after a batch is the fold of the records carrying that
key over the previous slot content (records with other keys do not touch it). -/
theorem applyBatch_key (batch : List Activity) :
    ∀ (db : ActivityTable) (k : ActivityKey),
    applyBatch db batch k
      = mergeRun (db k) (batch.filter (fun r => decide (activityKey r = k))) := by
  induction batch with
  | nil => intro db k; rfl
  | cons r rest ih =>
      intro db k
      have hstep : applyBatch db (r :: rest) = applyBatch (addActivity db r) rest := rfl
      rw [hstep, ih]
      by_cases hk : activityKey r = k
      · subst hk
        have h1 : addActivity db r (activityKey r) = mergeStep (db (activityKey r)) r := by
          unfold addActivity mergeStep
          rw [if_pos rfl]
        rw [h1]
        have h2 : (r :: rest).filter (fun x => decide (activityKey x = activityKey r))
            = r :: rest.filter (fun x => decide (activityKey x = activityKey r)) := by
          simp [List.filter_cons]
        rw [h2]
        rfl
      · have h1 : addActivity db r k = db k := by
          unfold addActivity
          rw [if_neg (by exact fun h => hk h.symm)]
        rw [h1]
        have h2 : (r :: rest).filter (fun x => decide (activityKey x = k))
            = rest.filter (fun x => decide (activityKey x = k)) := by
          simp [List.filter_cons, hk]
        rw [h2]

/-- Folding into an occupied slot is the row-level fold of the merges. -/
theorem mergeRun_some (batch : List Activity) :
    ∀ t : Activity, mergeRun (some t) batch = some (runRow t batch) := by
  induction batch with
  | nil => intro t; rfl
  | cons r rest ih =>
      intro t
      have h1 : mergeRun (some t) (r :: rest)
          = mergeRun (mergeStep (some t) r) rest := rfl
      have h2 : mergeStep (some t) r = some (mergeActivity t r) := rfl
      rw [h1, h2, ih]
      rfl

/-- Field-wise description of the row-level fold: the unique-key fields are
kept from the stored row, `account_has_feminine_name` is the last incoming
value, `happened_at` is the running maximum, and each nullable column is the
last non-null incoming value, falling back to the stored one. -/
theorem runRow_fields (batch : List Activity) :
    ∀ t : Activity,
    runRow t batch =
      { type := t.type
        accountId := t.accountId
        accountHasFeminineName := lastBoolFold t.accountHasFeminineName batch
        happenedOn := t.happenedOn
        happenedAt := maxAtFold t.happenedAt batch
        orderCoupon := lastSomeFold (fun r => r.orderCoupon) t.orderCoupon batch
        subscriptionInterval :=
          lastSomeFold (fun r => r.subscriptionInterval) t.subscriptionInterval batch
        subscriptionType :=
          lastSomeFold (fun r => r.subscriptionType) t.subscriptionType batch } := by
  induction batch with
  | nil => intro t; rfl
  | cons r rest ih =>
      intro t
      have h1 : runRow t (r :: rest) = runRow (mergeActivity t r) rest := rfl
      rw [h1, ih (mergeActivity t r)]
      rfl

/-- Re-running the overwrite fold leaves its result unchanged. -/
theorem lastBoolFold_idem (batch : List Activity) (x : Bool) :
    lastBoolFold (lastBoolFold x batch) batch = lastBoolFold x batch := by
  cases batch with
  | nil => rfl
  | cons r rest =>
      have h : ∀ y : Bool, lastBoolFold y (r :: rest)
          = lastBoolFold r.accountHasFeminineName rest := fun _ => rfl
      rw [h, h]

/-- The seed of the maximum fold bounds its result. -/
theorem le_maxAtFold (batch : List Activity) :
    ∀ x : Nat, x ≤ maxAtFold x batch := by
  induction batch with
  | nil => intro x; exact Nat.le_refl x
  | cons r rest ih =>
      intro x
      have h1 : maxAtFold x (r :: rest) = maxAtFold (max x r.happenedAt) rest := rfl
      rw [h1]
      exact Nat.le_trans (Nat.le_max_left x r.happenedAt) (ih (max x r.happenedAt))

/-- Every element of the batch bounds the maximum fold. -/
theorem mem_le_maxAtFold (batch : List Activity) :
    ∀ (x : Nat) (r : Activity), r ∈ batch → r.happenedAt ≤ maxAtFold x batch := by
  induction batch with
  | nil => intro x r h; exact absurd h (List.not_mem_nil r)
  | cons a rest ih =>
      intro x r h
      have h1 : maxAtFold x (a :: rest) = maxAtFold (max x a.happenedAt) rest := rfl
      rw [h1]
      rcases List.mem_cons.mp h with h | h
      · subst h
        exact Nat.le_trans (Nat.le_max_right x r.happenedAt)
          (le_maxAtFold rest (max x r.happenedAt))
      · exact ih (max x a.happenedAt) r h

/-- A seed dominating the whole batch is the value of the maximum fold. -/
theorem maxAtFold_of_dominant (batch : List Activity) :
    ∀ x : Nat, (∀ r ∈ batch, r.happenedAt ≤ x) → maxAtFold x batch = x := by
  induction batch with
  | nil => intro x _; rfl
  | cons a rest ih =>
      intro x h
      have h1 : maxAtFold x (a :: rest) = maxAtFold (max x a.happenedAt) rest := rfl
      have ha : max x a.happenedAt = x :=
        Nat.max_eq_left (h a (List.mem_cons_self a rest))
      rw [h1, ha]
      exact ih x (fun r hr => h r (List.mem_cons_of_mem a hr))

/-- Re-running the maximum fold leaves its result unchanged. -/
theorem maxAtFold_idem (batch : List Activity) (x : Nat) :
    maxAtFold (maxAtFold x batch) batch = maxAtFold x batch :=
  maxAtFold_of_dominant batch (maxAtFold x batch)
    (fun r hr => mem_le_maxAtFold batch x r hr)

/-- The last-non-null fold in terms of its seed. -/
theorem lastSomeFold_init {α : Type} (f : Activity → Option α) (batch : List Activity) :
    ∀ x : Option α,
    lastSomeFold f x batch = overwriteIfSome (lastSomeFold f none batch) x := by
  induction batch with
  | nil => intro x; cases x <;> rfl
  | cons r rest ih =>
      intro x
      have h1 : ∀ y : Option α, lastSomeFold f y (r :: rest)
          = lastSomeFold f (overwriteIfSome (f r) y) rest := fun _ => rfl
      rw [h1, h1, ih (overwriteIfSome (f r) x), ih (overwriteIfSome (f r) none)]
      cases hC : lastSomeFold f none rest <;> cases hf : f r <;> cases x <;>
        simp [overwriteIfSome]

/-- Re-running the last-non-null fold leaves its result unchanged. -/
theorem lastSomeFold_idem {α : Type} (f : Activity → Option α)
    (batch : List Activity) (x : Option α) :
    lastSomeFold f (lastSomeFold f x batch) batch = lastSomeFold f x batch := by
  rw [lastSomeFold_init f batch x,
    lastSomeFold_init f batch (overwriteIfSome (lastSomeFold f none batch) x)]
  cases hC : lastSomeFold f none batch <;> cases x <;> simp [overwriteIfSome]

/-- Merging the folded row back over its own seed and re-running the fold
changes nothing (the absorption law used for re-inserted records). -/
theorem lastSomeFold_absorb {α : Type} (f : Activity → Option α)
    (batch : List Activity) (x : Option α) :
    lastSomeFold f (overwriteIfSome x (lastSomeFold f x batch)) batch
      = lastSomeFold f x batch := by
  rw [lastSomeFold_init f batch x,
    lastSomeFold_init f batch (overwriteIfSome x (overwriteIfSome (lastSomeFold f none batch) x))]
  cases hC : lastSomeFold f none batch <;> cases x <;> simp [overwriteIfSome]

/-- Re-running the row-level fold on its own result changes nothing. -/
theorem runRow_idem (batch : List Activity) (t : Activity) :
    runRow (runRow t batch) batch = runRow t batch := by
  rw [runRow_fields batch t]
  rw [runRow_fields batch]
  congr 1
  · exact lastBoolFold_idem batch _
  · exact maxAtFold_idem batch _
  · exact lastSomeFold_idem _ batch _
  · exact lastSomeFold_idem _ batch _
  · exact lastSomeFold_idem _ batch _

/-- Conflict-merging the seed record back into the folded row and re-running
the fold changes nothing. -/
theorem runRow_absorb (batch : List Activity) (r : Activity) :
    runRow (mergeActivity (runRow r batch) r) batch = runRow r batch := by
  rw [runRow_fields batch r]
  rw [runRow_fields batch]
  congr 1
  · have h1 : max (maxAtFold r.happenedAt batch) r.happenedAt
        = maxAtFold r.happenedAt batch :=
      Nat.max_eq_left (le_maxAtFold batch r.happenedAt)
    show maxAtFold (max (maxAtFold r.happenedAt batch) r.happenedAt) batch
        = maxAtFold r.happenedAt batch
    rw [h1, maxAtFold_idem]
  · exact lastSomeFold_absorb _ batch _
  · exact lastSomeFold_absorb _ batch _
  · exact lastSomeFold_absorb _ batch _

/-- Re-running a batch over a single key slot changes nothing. -/
theorem mergeRun_idem (batch : List Activity) (s : Option Activity) :
    mergeRun (mergeRun s batch) batch = mergeRun s batch := by
  cases s with
  | some t =>
      rw [mergeRun_some batch t, mergeRun_some batch (runRow t batch), runRow_idem]
  | none =>
      cases batch with
      | nil => rfl
      | cons r rest =>
          have h1 : mergeRun none (r :: rest) = mergeRun (some r) rest := rfl
          rw [h1, mergeRun_some rest r]
          have h2 : mergeRun (some (runRow r rest)) (r :: rest)
              = mergeRun (some (mergeActivity (runRow r rest) r)) rest := rfl
          rw [h2, mergeRun_some rest (mergeActivity (runRow r rest) r), runRow_absorb]

/-- Folding an appended batch is folding one after the other. -/
theorem mergeRun_append (s : Option Activity) (b1 b2 : List Activity) :
    mergeRun s (b1 ++ b2) = mergeRun (mergeRun s b1) b2 := by
  unfold mergeRun
  exact List.foldl_append mergeStep s b1 b2

/-- Over one key slot, two batches whose records are pairwise equal fold the
same way in either order. -/
theorem mergeRun_swap (s : Option Activity) (f1 f2 : List Activity)
    (h : ∀ a ∈ f1, ∀ b ∈ f2, a = b) :
    mergeRun s (f1 ++ f2) = mergeRun s (f2 ++ f1) := by
  cases hf1 : f1 with
  | nil => simp
  | cons a1 t1 =>
      cases hf2 : f2 with
      | nil => simp
      | cons b1 t2 =>
          subst hf1
          subst hf2
          have ha1 : a1 ∈ a1 :: t1 := List.mem_cons_self a1 t1
          have hb1 : b1 ∈ b1 :: t2 := List.mem_cons_self b1 t2
          have hall : ∀ x ∈ (a1 :: t1) ++ (b1 :: t2), x = b1 := by
            intro x hx
            rcases List.mem_append.mp hx with hx | hx
            · exact h x hx b1 hb1
            · exact (h a1 ha1 x hx).symm.trans (h a1 ha1 b1 hb1)
          have hall2 : ∀ x ∈ (b1 :: t2) ++ (a1 :: t1), x = b1 := by
            intro x hx
            rcases List.mem_append.mp hx with hx | hx
            · exact (h a1 ha1 x hx).symm.trans (h a1 ha1 b1 hb1)
            · exact h x hx b1 hb1
          have e1 := List.eq_replicate_of_mem hall
          have e2 := List.eq_replicate_of_mem hall2
          have hlen : ((a1 :: t1) ++ (b1 :: t2)).length
              = ((b1 :: t2) ++ (a1 :: t1)).length := by
            simp [List.length_append]
            omega
          rw [e1, e2, hlen]

/-- C2 idempotence at the table level. -/
theorem applyBatch_idem (db : ActivityTable) (batch : List Activity) :
    applyBatch (applyBatch db batch) batch = applyBatch db batch :=
  funext fun k => by
    rw [applyBatch_key batch (applyBatch db batch) k, applyBatch_key batch db k,
      mergeRun_idem]

/-- C2 order-convergence at the table level, for batches that agree on the
records of every shared unique key. -/
theorem applyBatch_comm (db : ActivityTable) (b1 b2 : List Activity)
    (h : ∀ r1 ∈ b1, ∀ r2 ∈ b2, activityKey r1 = activityKey r2 → r1 = r2) :
    applyBatch (applyBatch db b1) b2 = applyBatch (applyBatch db b2) b1 :=
  funext fun k => by
    rw [applyBatch_key b2 (applyBatch db b1) k, applyBatch_key b1 db k,
      applyBatch_key b1 (applyBatch db b2) k, applyBatch_key b2 db k,
      ← mergeRun_append, ← mergeRun_append]
    apply mergeRun_swap
    intro a ha b hb
    have ha2 := List.mem_filter.mp ha
    have hb2 := List.mem_filter.mp hb
    have hka : activityKey a = k := by simpa using ha2.2
    have hkb : activityKey b = k := by simpa using hb2.2
    exact h a ha2.1 b hb2.1 (hka.trans hkb.symm)

/-- C2 amended: the ledger upsert is idempotent (re-applying a batch changes
nothing); two overlapping batches converge to the same stored state in either
order whenever records sharing a unique key are identical across the batches
(when they disagree on a non-key field, the later application wins, see the
counterexample); on conflict the stored `happened_at` becomes the maximum of
the stored and incoming values and so never moves backward; every non-null
incoming field overwrites the stored value; and the unique-key fields of the
stored row are never rewritten. -/
theorem subscription_add_upsert :
    (∀ (db : ActivityTable) (batch : List Activity),
      applyBatch (applyBatch db batch) batch = applyBatch db batch)
    ∧ (∀ (db : ActivityTable) (b1 b2 : List Activity),
      (∀ r1 ∈ b1, ∀ r2 ∈ b2, activityKey r1 = activityKey r2 → r1 = r2) →
      applyBatch (applyBatch db b1) b2 = applyBatch (applyBatch db b2) b1)
    ∧ (∀ (db : ActivityTable) (a stored : Activity),
      db (activityKey a) = some stored →
      addActivity db a (activityKey a) = some (mergeActivity stored a))
    ∧ (∀ (stored a : Activity),
      (mergeActivity stored a).happenedAt = max stored.happenedAt a.happenedAt
      ∧ stored.happenedAt ≤ (mergeActivity stored a).happenedAt
      ∧ (mergeActivity stored a).type = stored.type
      ∧ (mergeActivity stored a).accountId = stored.accountId
      ∧ (mergeActivity stored a).happenedOn = stored.happenedOn
      ∧ (mergeActivity stored a).accountHasFeminineName = a.accountHasFeminineName
      ∧ (∀ c, a.orderCoupon = some c → (mergeActivity stored a).orderCoupon = some c)
      ∧ (∀ iv, a.subscriptionInterval = some iv →
          (mergeActivity stored a).subscriptionInterval = some iv)
      ∧ (∀ st2, a.subscriptionType = some st2 →
          (mergeActivity stored a).subscriptionType = some st2)) := by
  refine ⟨applyBatch_idem, applyBatch_comm, ?_, ?_⟩
  · intro db a stored h
    unfold addActivity
    rw [if_pos rfl, h]
  · intro stored a
    refine ⟨rfl, Nat.le_max_left _ _, rfl, rfl, rfl, rfl, ?_, ?_, ?_⟩
    · intro c hc
      simp [mergeActivity, overwriteIfSome, hc]
    · intro iv hiv
      simp [mergeActivity, overwriteIfSome, hiv]
    · intro st2 hst
      simp [mergeActivity, overwriteIfSome, hst]

/-- Witness for C2: applying a concrete two-record batch twice equals applying
it once, and two concrete batches touching different keys commute. -/
theorem subscription_add_upsert_witness :
    applyBatch (applyBatch emptyTable [cexShared, cexCouponA]) [cexShared, cexCouponA]
        = applyBatch emptyTable [cexShared, cexCouponA]
    ∧ applyBatch (applyBatch emptyTable [cexShared]) [cexCouponA]
        = applyBatch (applyBatch emptyTable [cexCouponA]) [cexShared] :=
  ⟨subscription_add_upsert.1 emptyTable [cexShared, cexCouponA],
   subscription_add_upsert.2.1 emptyTable [cexShared] [cexCouponA]
     (by
       intro r1 h1 r2 h2 hk
       rw [List.mem_singleton] at h1 h2
       subst h1
       subst h2
       exact absurd hk (by decide))⟩
